import Mathlib

/-!
Verification development for the EHR blockchain repository.

The authorization/audit core is the Solidity contract `EHR`
(blockchain/contracts, given here as src/unnamed/part_005 lines 157-321),
plus the Express records route (src/unnamed/part_006) backed by the
Mongoose `Record` model (api/models/Record.js).

The contract is shallowly embedded as a deterministic state machine:
Solidity mappings become total functions with default values, dynamic
arrays become lists, `require` failures become `Except.error` carrying the
revert string (a revert leaves the pre-state unchanged), `block.timestamp`
becomes an explicit clock field advanced by a dedicated `tick` operation
(Ethereum block timestamps never decrease), and the `keccak256` string
comparisons of the source are modelled as plain string equality
(keccak is injective on the role strings in play).
-/

namespace EHR

abbrev Address := Nat

/-- `struct User` of the contract (part_005 lines 162-167); the nested
`authorizedProviders` mapping is held separately in `EHRState`. -/
structure User where
  uname : String
  role : String
  isRegistered : Bool
deriving Repr, DecidableEq

/-- `struct MedicalRecord` (part_005 lines 169-178). -/
structure MedicalRecord where
  recordId : Nat
  patientAddress : Address
  uploaderAddress : Address
  fileHash : String
  recordType : String
  description : String
  timestamp : Nat
  isActive : Bool
deriving Repr, DecidableEq

/-- `struct AccessLog` (part_005 lines 180-184). -/
structure AccessLog where
  accessor : Address
  timestamp : Nat
  action : String
deriving Repr, DecidableEq

/-- Contract storage (part_005 lines 186-191) plus the block clock. -/
structure EHRState where
  users : Address → User
  authorizedProviders : Address → Address → Bool
  patientRecords : Address → List MedicalRecord
  recordAccessLogs : Nat → List AccessLog
  recordCounter : Nat
  clock : Nat

/-- Solidity default value of a `User` storage slot. -/
def defaultUser : User := ⟨"", "", false⟩

/-- Freshly deployed contract: every mapping at its default value. -/
def initialState : EHRState :=
  ⟨fun _ => defaultUser, fun _ _ => false, fun _ => [], fun _ => [], 0, 0⟩

/-- The five role strings accepted by `registerUser` (part_005 lines 218-225). -/
def validRoles : List String :=
  ["PATIENT", "DOCTOR", "HOSPITAL", "PHARMACY", "CLINIC"]

/-- Pointwise update of the nested `authorizedProviders` mapping. -/
def setEdge (f : Address → Address → Bool) (p d : Address) (v : Bool) :
    Address → Address → Bool :=
  fun x y => if x = p ∧ y = d then v else f x y

/-- `registerUser` (part_005 lines 216-233): reverts when the sender is
already registered, then when the role is not one of the five enumerated
strings; otherwise stores name/role and sets the registration flag. -/
def registerUser (s : EHRState) (sender : Address) (nm rl : String) :
    Except String EHRState :=
  if (s.users sender).isRegistered then .error "User already registered"
  else if rl ∈ validRoles then
    .ok { s with users := fun a => if a = sender then ⟨nm, rl, true⟩ else s.users a }
  else .error "Invalid role"

/-- `authorizeProvider` (part_005 lines 235-248): sender must be a
registered PATIENT, target must be registered and not a PATIENT;
sets the edge to `true`. -/
def authorizeProvider (s : EHRState) (sender provider : Address) :
    Except String EHRState :=
  if (s.users sender).isRegistered then
    if (s.users sender).role = "PATIENT" then
      if (s.users provider).isRegistered then
        if (s.users provider).role = "PATIENT" then
          .error "Cannot authorize a patient"
        else
          .ok { s with authorizedProviders := setEdge s.authorizedProviders sender provider true }
      else .error "Provider is not registered"
    else .error "Only patients can authorize providers"
  else .error "User is not registered"

/-- `revokeProviderAccess` (part_005 lines 250-258): sender must be a
registered PATIENT; sets the edge to `false` unconditionally. -/
def revokeProviderAccess (s : EHRState) (sender provider : Address) :
    Except String EHRState :=
  if (s.users sender).isRegistered then
    if (s.users sender).role = "PATIENT" then
      .ok { s with authorizedProviders := setEdge s.authorizedProviders sender provider false }
    else .error "Only patients can revoke provider access"
  else .error "User is not registered"

/-- The `onlyAuthorizedProvider` modifier condition (part_005 lines 206-213):
sender registered, and either the patient themself or an active edge. -/
def onlyAuthorizedProvider (s : EHRState) (sender patientAddress : Address) : Bool :=
  (s.users sender).isRegistered &&
    (decide (sender = patientAddress) || s.authorizedProviders patientAddress sender)

/-- `addMedicalRecord` (part_005 lines 260-290): gate on the modifier,
increment the counter, append the record to the patient's list and one
CREATE entry to the new record's access log. -/
def addMedicalRecord (s : EHRState) (sender patientAddress : Address)
    (fileHash recordType description : String) : Except String EHRState :=
  if onlyAuthorizedProvider s sender patientAddress then
    .ok { s with
      recordCounter := s.recordCounter + 1,
      patientRecords := fun a =>
        if a = patientAddress then
          s.patientRecords a ++
            [⟨s.recordCounter + 1, patientAddress, sender, fileHash, recordType,
              description, s.clock, true⟩]
        else s.patientRecords a,
      recordAccessLogs := fun r =>
        if r = s.recordCounter + 1 then
          s.recordAccessLogs r ++ [⟨sender, s.clock, "CREATE"⟩]
        else s.recordAccessLogs r }
  else .error "Not authorized to access patient records"

/-- `getPatientRecords` (part_005 lines 292-297): a `view` function gated
by the same modifier, returning the stored list as-is. -/
def getPatientRecords (s : EHRState) (sender patientAddress : Address) :
    Except String (List MedicalRecord) :=
  if onlyAuthorizedProvider s sender patientAddress then
    .ok (s.patientRecords patientAddress)
  else .error "Not authorized to access patient records"

/-- `getRecordAccessLogs` (part_005 lines 299-313): scans the caller's own
record list for the id (the source's for-loop with early break is `any`);
reverts otherwise, with no not-found case of its own. -/
def getRecordAccessLogs (s : EHRState) (sender : Address) (recordId : Nat) :
    Except String (List AccessLog) :=
  if (s.patientRecords sender).any (fun r => r.recordId == recordId) then
    .ok (s.recordAccessLogs recordId)
  else .error "Not authorized to view access logs"

/-- `isProviderAuthorized` (part_005 lines 316-320): reads the edge mapping
only; no self-access short-circuit. -/
def isProviderAuthorized (s : EHRState) (patientAddress providerAddress : Address) : Bool :=
  s.authorizedProviders patientAddress providerAddress

/-- One external transaction (or `view` call, or passage of block time). -/
inductive Op where
  | register (sender : Address) (nm rl : String)
  | grant (sender provider : Address)
  | revoke (sender provider : Address)
  | addRecord (sender patientAddress : Address) (fileHash recordType description : String)
  | getRecords (sender patientAddress : Address)
  | getLogs (sender : Address) (recordId : Nat)
  | tick (dt : Nat)

/-- Dispatch one operation. `view` calls cannot write storage in Solidity,
so they return the unchanged state on success. -/
def stepResult (s : EHRState) : Op → Except String EHRState
  | .register a nm rl => registerUser s a nm rl
  | .grant a d => authorizeProvider s a d
  | .revoke a d => revokeProviderAccess s a d
  | .addRecord a p f t d => addMedicalRecord s a p f t d
  | .getRecords a p =>
      match getPatientRecords s a p with
      | .ok _ => .ok s
      | .error e => .error e
  | .getLogs a r =>
      match getRecordAccessLogs s a r with
      | .ok _ => .ok s
      | .error e => .error e
  | .tick dt => .ok { s with clock := s.clock + dt }

/-- Effect of an operation on storage: a revert leaves the state unchanged. -/
def applyOp (s : EHRState) (op : Op) : EHRState :=
  match stepResult s op with
  | .ok s' => s'
  | .error _ => s

/-- Run a sequence of operations from a state. -/
def runOps (s : EHRState) (ops : List Op) : EHRState :=
  ops.foldl applyOp s

/-- States reachable from a freshly deployed contract. -/
inductive Reachable : EHRState → Prop where
  | init : Reachable initialState
  | step (s : EHRState) (op : Op) : Reachable s → Reachable (applyOp s op)

/-- Creation-order relation on records: assigned ids strictly increase and
block timestamps never decrease along a patient's stored list. -/
def recOrder (r1 r2 : MedicalRecord) : Prop :=
  r1.timestamp ≤ r2.timestamp ∧ r1.recordId < r2.recordId

/-- The ordering the spec asserts for `getPatientRecords`: each returned
record was created no earlier than the one that follows it. -/
def newestFirst (l : List MedicalRecord) : Prop :=
  List.Chain' (fun a b => b.timestamp ≤ a.timestamp) l

/-- Invariants of every reachable contract state. -/
structure Inv (s : EHRState) : Prop where
  edge_prov : ∀ p d, s.authorizedProviders p d = true →
    (s.users d).isRegistered = true ∧ (s.users d).role ≠ "PATIENT"
  edge_pat : ∀ p d, s.authorizedProviders p d = true →
    (s.users p).isRegistered = true ∧ (s.users p).role = "PATIENT"
  rec_owner : ∀ a r, r ∈ s.patientRecords a → r.patientAddress = a
  rec_id_le : ∀ a r, r ∈ s.patientRecords a → r.recordId ≤ s.recordCounter
  rec_ts_le : ∀ a r, r ∈ s.patientRecords a → r.timestamp ≤ s.clock
  rec_sorted : ∀ a, List.Pairwise recOrder (s.patientRecords a)
  rec_unique : ∀ a b r1 r2, r1 ∈ s.patientRecords a → r2 ∈ s.patientRecords b →
    r1.recordId = r2.recordId → a = b
  log_fresh : ∀ r, s.recordCounter < r → s.recordAccessLogs r = []

/-! ### API layer (src/unnamed/part_006 with api/models/Record.js)

The Express records route keeps its own MongoDB copy of records.  Only the
pieces the claims are about are embedded: the per-record `accessLog` array
with the `addAccessLog` instance method, the VIEW-logging loop of
`GET /patient/:patientAddress`, and the validation pipeline of `POST /`.
Wallet addresses are modelled with the same `Address` type as on-chain. -/

/-- One element of `recordSchema.accessLog` (Record.js lines 60-68). -/
structure DbAccessLog where
  accessorAddress : Address
  timestamp : Nat
  action : String
  ipAddress : String
deriving Repr, DecidableEq

/-- The slice of a Mongo `Record` document the claims touch. -/
structure DbRecord where
  patientAddress : Address
  uploaderAddress : Address
  recordType : String
  description : String
  accessLog : List DbAccessLog
deriving Repr, DecidableEq

/-- `recordSchema.methods.addAccessLog` (Record.js lines 94-101):
push one entry onto the document's `accessLog` array. -/
def addAccessLog (r : DbRecord) (accessor : Address) (act ip : String) (now : Nat) :
    DbRecord :=
  { r with accessLog := r.accessLog ++ [⟨accessor, now, act, ip⟩] }

/-- The logging loop of `GET /patient/:patientAddress` (part_006 lines
173-180): one `addAccessLog(user, VIEW, ip)` + save per returned record. -/
def logViews (records : List DbRecord) (user : Address) (ip : String) (now : Nat) :
    List DbRecord :=
  records.map (fun r => addAccessLog r user "VIEW" ip now)

/-- The `recordType` enum shared by the route validator (part_006 lines
41-43) and the Mongoose schema (Record.js line 15). -/
def validRecordTypes : List String :=
  ["PRESCRIPTION", "LAB_RESULT", "DIAGNOSIS", "MEDICAL_HISTORY", "VACCINATION"]

/-- The slice of a Mongo `User` document used by the records route. -/
structure ApiUser where
  walletAddress : Address
  authorizedProviders : List Address
deriving Repr, DecidableEq

/-- `User.findOne({ walletAddress })`. -/
def findUser (dbUsers : List ApiUser) (w : Address) : Option ApiUser :=
  dbUsers.find? (fun u => u.walletAddress == w)

/-- Outcomes of the `POST /` handler, by HTTP status. -/
inductive ApiResult where
  | validationError
  | patientNotFound
  | notAuthorizedApi
  | created (blockchainRecordId : Nat)
  | serverError
deriving Repr, DecidableEq

/-- `POST /` (part_006 lines 34-139), in the handler's order: the
express-validator body checks (recordType in the enum, description
non-empty) answer 400 before anything else; then the patient lookup (404),
the `authorizedProviders` membership check (403), and only then the
on-chain `addMedicalRecord` call, whose revert is caught as a 500 with no
state change. -/
def postRecord (dbUsers : List ApiUser) (s : EHRState) (callerW patientW : Address)
    (fileHash recordType description : String) : ApiResult × EHRState :=
  if recordType ∈ validRecordTypes ∧ description ≠ "" then
    match findUser dbUsers patientW with
    | none => (.patientNotFound, s)
    | some patient =>
      if callerW ∈ patient.authorizedProviders then
        match addMedicalRecord s callerW patientW fileHash recordType description with
        | .ok s' => (.created s'.recordCounter, s')
        | .error _ => (.serverError, s)
      else (.notAuthorizedApi, s)
  else (.validationError, s)

/-! ### Concrete scenario states used by witnesses and counterexamples -/

/-- Patient 1 registered. -/
def wReg : EHRState := runOps initialState [Op.register 1 "Alice" "PATIENT"]

/-- Patient 1 and doctor 2 registered. -/
def wPD : EHRState :=
  runOps initialState [Op.register 1 "Alice" "PATIENT", Op.register 2 "Bob" "DOCTOR"]

/-- Patient 1, doctor 2, edge granted. -/
def wGranted : EHRState := applyOp wPD (Op.grant 1 2)

/-- After additionally revoking doctor 2. -/
def wRevoked : EHRState := applyOp wGranted (Op.revoke 1 2)

/-- Doctor 2 added one record for patient 1 while authorized. -/
def wAdded : EHRState := applyOp wGranted (Op.addRecord 2 1 "QmHash123" "PRESCRIPTION" "chk")

/-- Patient 1 self-added a record with a non-enumerated record type. -/
def wFoo : EHRState := applyOp wReg (Op.addRecord 1 1 "h" "FOO" "d")

/-- Two records for patient 1 at strictly increasing block timestamps. -/
def wTwo : EHRState :=
  runOps initialState
    [Op.register 1 "Alice" "PATIENT",
     Op.tick 1, Op.addRecord 1 1 "h1" "PRESCRIPTION" "d1",
     Op.tick 1, Op.addRecord 1 1 "h2" "PRESCRIPTION" "d2"]

/-! ### Basic lemmas about the step function -/

/-- `getPatientRecords` is a Solidity `view` call: no storage effect. -/
theorem applyOp_getRecords (s : EHRState) (a p : Address) :
    applyOp s (Op.getRecords a p) = s := by
  cases hg : getPatientRecords s a p <;> simp [applyOp, stepResult, hg]

/-- `getRecordAccessLogs` is a Solidity `view` call: no storage effect. -/
theorem applyOp_getLogs (s : EHRState) (a : Address) (r : Nat) :
    applyOp s (Op.getLogs a r) = s := by
  cases hg : getRecordAccessLogs s a r <;> simp [applyOp, stepResult, hg]

theorem reachable_run (s : EHRState) (hs : Reachable s) (ops : List Op) :
    Reachable (runOps s ops) := by
  induction ops generalizing s with
  | nil => exact hs
  | cons op ops ih => exact ih (applyOp s op) (Reachable.step s op hs)

/-- A user's storage slot never changes again once registered. -/
theorem applyOp_users_registered (s : EHRState) (op : Op) (a : Address)
    (h : (s.users a).isRegistered = true) : (applyOp s op).users a = s.users a := by
  cases op with
  | register b nm rl =>
    simp only [applyOp, stepResult, registerUser]
    split_ifs with h1 h2
    · rfl
    · have hab : ¬ a = b := fun hab => h1 (hab ▸ h)
      simp [hab]
    · rfl
  | grant b d =>
    simp only [applyOp, stepResult, authorizeProvider]
    split_ifs <;> rfl
  | revoke b d =>
    simp only [applyOp, stepResult, revokeProviderAccess]
    split_ifs <;> rfl
  | addRecord b p f t d =>
    simp only [applyOp, stepResult, addMedicalRecord]
    split_ifs <;> rfl
  | getRecords b p => rw [applyOp_getRecords]
  | getLogs b r => rw [applyOp_getLogs]
  | tick dt => rfl

/-- The modifier condition, spelled out. -/
theorem onlyAuthorizedProvider_eq_true (s : EHRState) (u p : Address) :
    onlyAuthorizedProvider s u p = true ↔
      ((s.users u).isRegistered = true ∧ (u = p ∨ s.authorizedProviders p u = true)) := by
  simp [onlyAuthorizedProvider, Bool.and_eq_true, Bool.or_eq_true, decide_eq_true_eq]

/-- `addMedicalRecord` succeeds exactly when the modifier passes. -/
theorem addMedicalRecord_isOk (s : EHRState) (u p : Address) (f t d : String) :
    (∃ s', addMedicalRecord s u p f t d = .ok s') ↔
      onlyAuthorizedProvider s u p = true := by
  unfold addMedicalRecord
  by_cases hg : onlyAuthorizedProvider s u p = true <;> simp [hg]

/-! ### The reachable-state invariant -/

theorem inv_init : Inv initialState := by
  refine ⟨?_, ?_, ?_, ?_, ?_, ?_, ?_, ?_⟩ <;> intros <;> simp_all [initialState]

theorem inv_register (s : EHRState) (a : Address) (nm rl : String) (h : Inv s) :
    Inv (applyOp s (Op.register a nm rl)) := by
  simp only [applyOp, stepResult, registerUser]
  split_ifs with h1 h2
  · exact h
  · refine ⟨?_, ?_, h.rec_owner, h.rec_id_le, h.rec_ts_le, h.rec_sorted,
      h.rec_unique, h.log_fresh⟩
    · intro p d hpd
      have hold := h.edge_prov p d hpd
      have hd : ¬ d = a := fun hda => h1 (hda ▸ hold.1)
      simpa [hd] using hold
    · intro p d hpd
      have hold := h.edge_pat p d hpd
      have hp : ¬ p = a := fun hpa => h1 (hpa ▸ hold.1)
      simpa [hp] using hold
  · exact h

theorem inv_grant (s : EHRState) (a d0 : Address) (h : Inv s) :
    Inv (applyOp s (Op.grant a d0)) := by
  simp only [applyOp, stepResult, authorizeProvider]
  split_ifs with h1 h2 h3 h4 <;> try exact h
  refine ⟨?_, ?_, h.rec_owner, h.rec_id_le, h.rec_ts_le, h.rec_sorted,
    h.rec_unique, h.log_fresh⟩
  · intro p d hpd
    by_cases hc : p = a ∧ d = d0
    · obtain ⟨rfl, rfl⟩ := hc
      exact ⟨h3, h4⟩
    · have : s.authorizedProviders p d = true := by simpa [setEdge, hc] using hpd
      exact h.edge_prov p d this
  · intro p d hpd
    by_cases hc : p = a ∧ d = d0
    · obtain ⟨rfl, rfl⟩ := hc
      exact ⟨h1, h2⟩
    · have : s.authorizedProviders p d = true := by simpa [setEdge, hc] using hpd
      exact h.edge_pat p d this

theorem inv_revoke (s : EHRState) (a d0 : Address) (h : Inv s) :
    Inv (applyOp s (Op.revoke a d0)) := by
  simp only [applyOp, stepResult, revokeProviderAccess]
  split_ifs with h1 h2 <;> try exact h
  refine ⟨?_, ?_, h.rec_owner, h.rec_id_le, h.rec_ts_le, h.rec_sorted,
    h.rec_unique, h.log_fresh⟩
  · intro p d hpd
    by_cases hc : p = a ∧ d = d0
    · simp [setEdge, hc] at hpd
    · have : s.authorizedProviders p d = true := by simpa [setEdge, hc] using hpd
      exact h.edge_prov p d this
  · intro p d hpd
    by_cases hc : p = a ∧ d = d0
    · simp [setEdge, hc] at hpd
    · have : s.authorizedProviders p d = true := by simpa [setEdge, hc] using hpd
      exact h.edge_pat p d this

theorem inv_addRecord (s : EHRState) (u p0 : Address) (f t d : String) (h : Inv s) :
    Inv (applyOp s (Op.addRecord u p0 f t d)) := by
  simp only [applyOp, stepResult, addMedicalRecord]
  split_ifs with hg
  · dsimp only
    have hmem : ∀ a (r : MedicalRecord),
        r ∈ (if a = p0 then
              s.patientRecords a ++
                [⟨s.recordCounter + 1, p0, u, f, t, d, s.clock, true⟩]
             else s.patientRecords a) →
        r ∈ s.patientRecords a ∨
          (a = p0 ∧ r = ⟨s.recordCounter + 1, p0, u, f, t, d, s.clock, true⟩) := by
      intro a r hr
      by_cases ha : a = p0
      · rw [if_pos ha, List.mem_append, List.mem_singleton] at hr
        rcases hr with hr | hr
        · exact .inl hr
        · exact .inr ⟨ha, hr⟩
      · rw [if_neg ha] at hr
        exact .inl hr
    refine ⟨h.edge_prov, h.edge_pat, ?_, ?_, ?_, ?_, ?_, ?_⟩
    · intro a r hr
      dsimp only at hr
      rcases hmem a r hr with hr | ⟨rfl, rfl⟩
      · exact h.rec_owner a r hr
      · rfl
    · intro a r hr
      dsimp only at hr ⊢
      rcases hmem a r hr with hr | ⟨rfl, rfl⟩
      · exact Nat.le_trans (h.rec_id_le a r hr) (Nat.le_succ _)
      · exact Nat.le_refl _
    · intro a r hr
      dsimp only at hr ⊢
      rcases hmem a r hr with hr | ⟨rfl, rfl⟩
      · exact h.rec_ts_le a r hr
      · exact Nat.le_refl _
    · intro a
      dsimp only
      by_cases ha : a = p0
      · rw [if_pos ha]
        refine List.pairwise_append.mpr ⟨h.rec_sorted a, List.pairwise_singleton _ _, ?_⟩
        intro x hx y hy
        rw [List.mem_singleton] at hy
        subst hy
        exact ⟨h.rec_ts_le a x hx, Nat.lt_succ_of_le (h.rec_id_le a x hx)⟩
      · rw [if_neg ha]
        exact h.rec_sorted a
    · intro a b r1 r2 h1 h2 hid
      dsimp only at h1 h2
      rcases hmem a r1 h1 with h1' | ⟨rfl, rfl⟩
      · rcases hmem b r2 h2 with h2' | ⟨rfl, rfl⟩
        · exact h.rec_unique a b r1 r2 h1' h2' hid
        · have hle := h.rec_id_le a r1 h1'
          dsimp only at hid
          omega
      · rcases hmem b r2 h2 with h2' | ⟨rfl, hr2⟩
        · have hle := h.rec_id_le b r2 h2'
          dsimp only at hid
          omega
        · rfl
    · intro r hr
      dsimp only at hr ⊢
      rw [if_neg (by omega : ¬ r = s.recordCounter + 1)]
      exact h.log_fresh r (by omega)
  · exact h

theorem inv_tick (s : EHRState) (dt : Nat) (h : Inv s) :
    Inv (applyOp s (Op.tick dt)) := by
  refine ⟨h.edge_prov, h.edge_pat, h.rec_owner, h.rec_id_le, ?_, h.rec_sorted,
    h.rec_unique, h.log_fresh⟩
  intro a r hr
  exact Nat.le_trans (h.rec_ts_le a r hr) (Nat.le_add_right _ _)

theorem inv_step (s : EHRState) (op : Op) (h : Inv s) : Inv (applyOp s op) := by
  cases op with
  | register a nm rl => exact inv_register s a nm rl h
  | grant a d => exact inv_grant s a d h
  | revoke a d => exact inv_revoke s a d h
  | addRecord a p f t d => exact inv_addRecord s a p f t d h
  | getRecords a p => rw [applyOp_getRecords]; exact h
  | getLogs a r => rw [applyOp_getLogs]; exact h
  | tick dt => exact inv_tick s dt h

theorem reachable_inv (s : EHRState) (hs : Reachable s) : Inv s := by
  induction hs with
  | init => exact inv_init
  | step s op _ ih => exact inv_step s op ih

/-! ### Idempotence of grant and revoke -/

theorem setEdge_idem (f : Address → Address → Bool) (p d : Address) (v : Bool) :
    setEdge (setEdge f p d v) p d v = setEdge f p d v := by
  funext x y
  unfold setEdge
  split_ifs <;> rfl

theorem authorizeProvider_ok_idem (s s' : EHRState) (p d : Address)
    (h : authorizeProvider s p d = .ok s') : authorizeProvider s' p d = .ok s' := by
  unfold authorizeProvider at h ⊢
  split_ifs at h with h1 h2 h3 h4 <;>
    first
      | exact Except.noConfusion h
      | (obtain rfl := Except.ok.inj h
         dsimp only
         rw [if_pos h1, if_pos h2, if_pos h3, if_neg h4, setEdge_idem])

theorem revokeProviderAccess_ok_idem (s s' : EHRState) (p d : Address)
    (h : revokeProviderAccess s p d = .ok s') : revokeProviderAccess s' p d = .ok s' := by
  unfold revokeProviderAccess at h ⊢
  split_ifs at h with h1 h2 <;>
    first
      | exact Except.noConfusion h
      | (obtain rfl := Except.ok.inj h
         dsimp only
         rw [if_pos h1, if_pos h2, setEdge_idem])

theorem applyOp_grant_idem (s : EHRState) (p d : Address) :
    applyOp (applyOp s (Op.grant p d)) (Op.grant p d) = applyOp s (Op.grant p d) := by
  cases hg : authorizeProvider s p d with
  | error e => simp [applyOp, stepResult, hg]
  | ok s' => simp [applyOp, stepResult, hg, authorizeProvider_ok_idem s s' p d hg]

theorem applyOp_revoke_idem (s : EHRState) (p d : Address) :
    applyOp (applyOp s (Op.revoke p d)) (Op.revoke p d) = applyOp s (Op.revoke p d) := by
  cases hg : revokeProviderAccess s p d with
  | error e => simp [applyOp, stepResult, hg]
  | ok s' => simp [applyOp, stepResult, hg, revokeProviderAccess_ok_idem s s' p d hg]

theorem applyOp_grant_iterate (s : EHRState) (p d : Address) (n : Nat) :
    (fun t => applyOp t (Op.grant p d))^[n + 1] s = applyOp s (Op.grant p d) := by
  induction n with
  | zero => rfl
  | succ k ih =>
    rw [Function.iterate_succ_apply', ih]
    exact applyOp_grant_idem s p d

theorem applyOp_revoke_iterate (s : EHRState) (p d : Address) (n : Nat) :
    (fun t => applyOp t (Op.revoke p d))^[n + 1] s = applyOp s (Op.revoke p d) := by
  induction n with
  | zero => rfl
  | succ k ih =>
    rw [Function.iterate_succ_apply', ih]
    exact applyOp_revoke_idem s p d

/-! ### The access log only ever grows -/

theorem applyOp_logs_extend (s : EHRState) (op : Op) (rid : Nat) :
    ∃ t, (applyOp s op).recordAccessLogs rid = s.recordAccessLogs rid ++ t := by
  cases op with
  | register a nm rl =>
    refine ⟨[], ?_⟩
    simp only [applyOp, stepResult, registerUser]
    split_ifs <;> simp
  | grant a d =>
    refine ⟨[], ?_⟩
    simp only [applyOp, stepResult, authorizeProvider]
    split_ifs <;> simp
  | revoke a d =>
    refine ⟨[], ?_⟩
    simp only [applyOp, stepResult, revokeProviderAccess]
    split_ifs <;> simp
  | addRecord a p f t d =>
    simp only [applyOp, stepResult, addMedicalRecord]
    split_ifs with hg
    · dsimp only
      by_cases hr : rid = s.recordCounter + 1
      · exact ⟨[⟨a, s.clock, "CREATE"⟩], by rw [if_pos hr]⟩
      · exact ⟨[], by rw [if_neg hr, List.append_nil]⟩
    · exact ⟨[], by simp⟩
  | getRecords a p => rw [applyOp_getRecords]; exact ⟨[], by simp⟩
  | getLogs a r => rw [applyOp_getLogs]; exact ⟨[], by simp⟩
  | tick dt => exact ⟨[], by simp [applyOp, stepResult]⟩

/-! ### Reachability of the concrete scenario states -/

theorem wReg_reachable : Reachable wReg :=
  reachable_run initialState Reachable.init [Op.register 1 "Alice" "PATIENT"]

theorem wPD_reachable : Reachable wPD :=
  reachable_run initialState Reachable.init
    [Op.register 1 "Alice" "PATIENT", Op.register 2 "Bob" "DOCTOR"]

theorem wGranted_reachable : Reachable wGranted :=
  Reachable.step wPD (Op.grant 1 2) wPD_reachable

theorem wRevoked_reachable : Reachable wRevoked :=
  Reachable.step wGranted (Op.revoke 1 2) wGranted_reachable

theorem wAdded_reachable : Reachable wAdded :=
  Reachable.step wGranted (Op.addRecord 2 1 "QmHash123" "PRESCRIPTION" "chk")
    wGranted_reachable

theorem wTwo_reachable : Reachable wTwo :=
  reachable_run initialState Reachable.init
    [Op.register 1 "Alice" "PATIENT",
     Op.tick 1, Op.addRecord 1 1 "h1" "PRESCRIPTION" "d1",
     Op.tick 1, Op.addRecord 1 1 "h2" "PRESCRIPTION" "d2"]

/-! ### Claim theorems -/

/-- C1: for a registered patient address P in a reachable state,
`addMedicalRecord(P, ...)` sent by uploader U succeeds iff U is P themself
or holds an active authorization edge granted by P; and once P revokes U
(with no re-grant), the call reverts with the NotAuthorized message and
stores nothing. -/
theorem C1_write_gating (s : EHRState) (hs : Reachable s) (P U : Address)
    (hP : (s.users P).isRegistered = true) (f t d : String) :
    ((∃ s', addMedicalRecord s U P f t d = .ok s') ↔
      (U = P ∨ s.authorizedProviders P U = true)) ∧
    (∀ s', revokeProviderAccess s P U = .ok s' → U ≠ P →
      addMedicalRecord s' U P f t d = .error "Not authorized to access patient records" ∧
      applyOp s' (Op.addRecord U P f t d) = s') := by
  have hinv := reachable_inv s hs
  constructor
  · rw [addMedicalRecord_isOk, onlyAuthorizedProvider_eq_true]
    constructor
    · rintro ⟨-, h⟩
      exact h
    · rintro (rfl | hedge)
      · exact ⟨hP, .inl rfl⟩
      · exact ⟨(hinv.edge_prov P U hedge).1, .inr hedge⟩
  · intro s' hrev hne
    unfold revokeProviderAccess at hrev
    split_ifs at hrev with h1
    obtain rfl := Except.ok.inj hrev
    have hgate : onlyAuthorizedProvider
        { s with authorizedProviders := setEdge s.authorizedProviders P U false } U P
          = false := by
      simp [onlyAuthorizedProvider, setEdge, hne]
    constructor
    · simp [addMedicalRecord, hgate]
    · simp [applyOp, stepResult, addMedicalRecord, hgate]

/-- Witness for C1 at patient 1, doctor 2: the gating iff after a grant,
and the revert + no-op after the revoke. -/
theorem C1_write_gating_witness :
    ((∃ s', addMedicalRecord wGranted 2 1 "QmHash123" "PRESCRIPTION" "chk" = .ok s') ↔
      ((2 : Address) = 1 ∨ wGranted.authorizedProviders 1 2 = true)) ∧
    (addMedicalRecord wRevoked 2 1 "QmHash123" "PRESCRIPTION" "chk" =
        .error "Not authorized to access patient records" ∧
      applyOp wRevoked (Op.addRecord 2 1 "QmHash123" "PRESCRIPTION" "chk") = wRevoked) :=
  ⟨(C1_write_gating wGranted wGranted_reachable 1 2 (by decide)
      "QmHash123" "PRESCRIPTION" "chk").1,
   (C1_write_gating wGranted wGranted_reachable 1 2 (by decide)
      "QmHash123" "PRESCRIPTION" "chk").2 wRevoked rfl (by decide)⟩

/-- C2 (amended): in any reachable state a registered user passes the
access gate for their own records with no explicit edge, but the
`isProviderAuthorized` query on the diagonal returns false — the
self-access short-circuit lives only in the `onlyAuthorizedProvider`
modifier, never in the edge mapping the query reads. -/
theorem C2_self_access_gate (s : EHRState) (hs : Reachable s) (P : Address)
    (hP : (s.users P).isRegistered = true) :
    onlyAuthorizedProvider s P P = true ∧ isProviderAuthorized s P P = false := by
  have hinv := reachable_inv s hs
  constructor
  · simp [onlyAuthorizedProvider, hP]
  · show s.authorizedProviders P P = false
    cases hb : s.authorizedProviders P P with
    | false => rfl
    | true => exact absurd (hinv.edge_pat P P hb).2 (hinv.edge_prov P P hb).2

/-- Counterexample to C2 as stated: address 1 is a registered patient,
yet `isProviderAuthorized(1, 1)` returns false, not true. -/
theorem C2_counterexample :
    (wReg.users 1).isRegistered = true ∧ (wReg.users 1).role = "PATIENT" ∧
    isProviderAuthorized wReg 1 1 = false := by decide

/-- Witness for C2's amended theorem at the registered patient 1. -/
theorem C2_self_access_gate_witness :
    onlyAuthorizedProvider wReg 1 1 = true ∧ isProviderAuthorized wReg 1 1 = false :=
  C2_self_access_gate wReg wReg_reachable 1 (by decide)

/-- C3: a successful `addMedicalRecord` appends exactly one CREATE entry,
to the fresh record id's (previously empty) log, touching no other log;
and the `GET /patient/:patientAddress` loop appends exactly one VIEW entry
per returned record. -/
theorem C3_audit_on_success :
    (∀ s u p f t d s', Reachable s → addMedicalRecord s u p f t d = .ok s' →
      s'.recordCounter = s.recordCounter + 1 ∧
      s'.recordAccessLogs s'.recordCounter = [⟨u, s.clock, "CREATE"⟩] ∧
      ∀ r, r ≠ s'.recordCounter → s'.recordAccessLogs r = s.recordAccessLogs r) ∧
    (∀ records user ip now,
      List.Forall₂ (fun r r' => r'.accessLog = r.accessLog ++ [⟨user, now, "VIEW", ip⟩])
        records (logViews records user ip now)) := by
  constructor
  · intro s u p f t d s' hs hok
    have hinv := reachable_inv s hs
    unfold addMedicalRecord at hok
    split_ifs at hok with hg
    · obtain rfl := Except.ok.inj hok
      dsimp only
      refine ⟨rfl, ?_, ?_⟩
      · rw [if_pos rfl, hinv.log_fresh (s.recordCounter + 1) (Nat.lt_succ_self _)]
        rfl
      · intro r hr
        exact if_neg hr
  · intro records user ip now
    induction records with
    | nil => exact List.Forall₂.nil
    | cons r rs ih => exact List.Forall₂.cons rfl ih

/-- Witness for C3: doctor 2's successful upload for patient 1 produced
exactly the one CREATE entry, and the route loop appends one VIEW entry. -/
theorem C3_audit_on_success_witness :
    wAdded.recordCounter = wGranted.recordCounter + 1 ∧
    wAdded.recordAccessLogs wAdded.recordCounter = [⟨2, wGranted.clock, "CREATE"⟩] ∧
    List.Forall₂ (fun r r' => r'.accessLog = r.accessLog ++ [⟨2, 7, "VIEW", "ip1"⟩])
      ([⟨1, 2, "PRESCRIPTION", "chk", []⟩] : List DbRecord)
      (logViews [⟨1, 2, "PRESCRIPTION", "chk", []⟩] 2 "ip1" 7) :=
  ⟨(C3_audit_on_success.1 wGranted 2 1 "QmHash123" "PRESCRIPTION" "chk" wAdded
      wGranted_reachable rfl).1,
   (C3_audit_on_success.1 wGranted 2 1 "QmHash123" "PRESCRIPTION" "chk" wAdded
      wGranted_reachable rfl).2.1,
   C3_audit_on_success.2 [⟨1, 2, "PRESCRIPTION", "chk", []⟩] 2 "ip1" 7⟩

/-- C4: across any operation sequence, every record's access log is only
ever extended — entries already appended are never mutated or removed —
and the `getRecordAccessLogs` view call leaves the state untouched. -/
theorem C4_append_only (s : EHRState) (ops : List Op) (rid : Nat) :
    (∃ t, (runOps s ops).recordAccessLogs rid = s.recordAccessLogs rid ++ t) ∧
    (∀ c r, applyOp s (Op.getLogs c r) = s) := by
  constructor
  · induction ops generalizing s with
    | nil => exact ⟨[], (List.append_nil _).symm⟩
    | cons op ops ih =>
      obtain ⟨t2, h2⟩ := ih (applyOp s op)
      obtain ⟨t1, h1⟩ := applyOp_logs_extend s op rid
      refine ⟨t1 ++ t2, ?_⟩
      rw [show runOps s (op :: ops) = runOps (applyOp s op) ops from rfl, h2, h1,
        List.append_assoc]
  · exact fun c r => applyOp_getLogs s c r

/-- C5 (amended): the route validator rejects a non-enumerated
`recordType` with a 400 validation error before any record is created or
any contract call is made, but the contract itself performs no recordType
validation: any string is accepted and stored whenever the caller passes
the authorization gate. -/
theorem C5_type_validation (dbUsers : List ApiUser) (s : EHRState)
    (callerW patientW : Address) (f t d : String) (ht : t ∉ validRecordTypes) :
    postRecord dbUsers s callerW patientW f t d = (ApiResult.validationError, s) ∧
    (∀ u p, onlyAuthorizedProvider s u p = true →
      ∃ s', addMedicalRecord s u p f t d = .ok s' ∧
        (⟨s.recordCounter + 1, p, u, f, t, d, s.clock, true⟩ : MedicalRecord)
          ∈ s'.patientRecords p) := by
  constructor
  · unfold postRecord
    rw [if_neg (fun hcon => ht hcon.1)]
  · intro u p hg
    obtain ⟨s', hok⟩ := (addMedicalRecord_isOk s u p f t d).mpr hg
    refine ⟨s', hok, ?_⟩
    unfold addMedicalRecord at hok
    rw [if_pos hg] at hok
    obtain rfl := Except.ok.inj hok
    simp

/-- Counterexample to C5 as stated: patient 1 self-uploads a record with
recordType "FOO"; the contract call succeeds (no InvalidType failure) and
the stored record carries the non-enumerated type. -/
theorem C5_counterexample :
    stepResult wReg (Op.addRecord 1 1 "h" "FOO" "d") = .ok wFoo ∧
    (wFoo.patientRecords 1).map (fun r => r.recordType) = ["FOO"] ∧
    "FOO" ∉ validRecordTypes :=
  ⟨rfl, by decide, by decide⟩

/-- Witness for C5's amended theorem with recordType "FOO". -/
theorem C5_type_validation_witness :
    postRecord [] wReg 2 1 "h" "FOO" "d" = (ApiResult.validationError, wReg) ∧
    (∃ s', addMedicalRecord wReg 1 1 "h" "FOO" "d" = .ok s' ∧
      (⟨wReg.recordCounter + 1, 1, 1, "h", "FOO", "d", wReg.clock, true⟩ : MedicalRecord)
        ∈ s'.patientRecords 1) :=
  ⟨(C5_type_validation [] wReg 2 1 "h" "FOO" "d" (by decide)).1,
   (C5_type_validation [] wReg 2 1 "h" "FOO" "d" (by decide)).2 1 1 (by decide)⟩

/-- C6 (amended): `getPatientRecords` returns the stored list in insertion
order, oldest first — each returned record was created no later than the
one that follows it (nondecreasing timestamps and strictly increasing
ids); newest-first presentation exists only in the API route's database
sort, not in the contract. -/
theorem C6_records_oldest_first (s : EHRState) (hs : Reachable s) (c p : Address)
    (l : List MedicalRecord) (h : getPatientRecords s c p = .ok l) :
    List.Chain' recOrder l := by
  have hinv := reachable_inv s hs
  unfold getPatientRecords at h
  split_ifs at h with hg
  all_goals first
    | exact Except.noConfusion h
    | (obtain rfl := Except.ok.inj h
       exact (hinv.rec_sorted p).chain')

/-- Counterexample to C6 as stated: patient 1's two records come back
oldest first (timestamps [1, 2]), so the newest-first ordering fails. -/
theorem C6_counterexample :
    getPatientRecords wTwo 1 1 = .ok (wTwo.patientRecords 1) ∧
    (wTwo.patientRecords 1).map (fun r => r.timestamp) = [1, 2] ∧
    ¬ newestFirst (wTwo.patientRecords 1) := by
  refine ⟨rfl, by decide, ?_⟩
  intro hnf
  unfold newestFirst at hnf
  rw [show wTwo.patientRecords 1 =
      [⟨1, 1, 1, "h1", "PRESCRIPTION", "d1", 1, true⟩,
       ⟨2, 1, 1, "h2", "PRESCRIPTION", "d2", 2, true⟩] by decide] at hnf
  exact absurd (List.chain'_cons.mp hnf).1 (by decide)

/-- Witness for C6's amended theorem on the two-record scenario. -/
theorem C6_records_oldest_first_witness :
    List.Chain' recOrder (wTwo.patientRecords 1) :=
  C6_records_oldest_first wTwo wTwo_reachable 1 1 (wTwo.patientRecords 1) rfl

/-- C7: granting N≥1 times leaves the state exactly as granting once,
and the same for revoke — including revoking a non-existent or
already-revoked edge — and a successful grant (resp. revoke) repeated
succeeds again with the state unchanged. -/
theorem C7_grant_revoke_idempotent (s : EHRState) (p d : Address) :
    (∀ n : Nat,
      (fun t => applyOp t (Op.grant p d))^[n + 1] s = applyOp s (Op.grant p d)) ∧
    (∀ n : Nat,
      (fun t => applyOp t (Op.revoke p d))^[n + 1] s = applyOp s (Op.revoke p d)) ∧
    (∀ s', authorizeProvider s p d = .ok s' → authorizeProvider s' p d = .ok s') ∧
    (∀ s', revokeProviderAccess s p d = .ok s' → revokeProviderAccess s' p d = .ok s') :=
  ⟨applyOp_grant_iterate s p d, applyOp_revoke_iterate s p d,
   fun s' h => authorizeProvider_ok_idem s s' p d h,
   fun s' h => revokeProviderAccess_ok_idem s s' p d h⟩

/-- Witness for C7: double grant equals single grant from the two-user
state, a repeated grant and a repeated revoke are no-op successes, and
revoking the never-granted edge (1, 5) is a no-op success too. -/
theorem C7_grant_revoke_idempotent_witness :
    (fun t => applyOp t (Op.grant 1 2))^[2] wPD = applyOp wPD (Op.grant 1 2) ∧
    authorizeProvider wGranted 1 2 = .ok wGranted ∧
    revokeProviderAccess wRevoked 1 2 = .ok wRevoked ∧
    (fun t => applyOp t (Op.revoke 1 5))^[2] wReg = applyOp wReg (Op.revoke 1 5) :=
  ⟨(C7_grant_revoke_idempotent wPD 1 2).1 1,
   (C7_grant_revoke_idempotent wPD 1 2).2.2.1 wGranted rfl,
   (C7_grant_revoke_idempotent wGranted 1 2).2.2.2 wRevoked rfl,
   (C7_grant_revoke_idempotent wReg 1 5).2.1 1⟩

/-- C8: the first `registerUser` call for an unregistered address with a
valid role succeeds and stores that name, role and flag; every later
register call for the same address reverts with AlreadyRegistered
whatever the submitted name and role, and leaves the stored user — and
all state — unchanged. -/
theorem C8_registration_unique (s : EHRState) (a : Address) (nm rl : String)
    (hreg : (s.users a).isRegistered = false) (hrl : rl ∈ validRoles) :
    registerUser s a nm rl = .ok (applyOp s (Op.register a nm rl)) ∧
    (applyOp s (Op.register a nm rl)).users a = ⟨nm, rl, true⟩ ∧
    ∀ nm2 rl2,
      registerUser (applyOp s (Op.register a nm rl)) a nm2 rl2 =
        .error "User already registered" ∧
      applyOp (applyOp s (Op.register a nm rl)) (Op.register a nm2 rl2) =
        applyOp s (Op.register a nm rl) := by
  have hstep : applyOp s (Op.register a nm rl) =
      { s with users := fun x => if x = a then ⟨nm, rl, true⟩ else s.users x } := by
    simp [applyOp, stepResult, registerUser, hreg, hrl]
  have husers : (applyOp s (Op.register a nm rl)).users a = ⟨nm, rl, true⟩ := by
    rw [hstep]
    simp
  refine ⟨?_, husers, ?_⟩
  · rw [hstep]
    simp [registerUser, hreg, hrl]
  · intro nm2 rl2
    constructor
    · rw [hstep]
      simp [registerUser]
    · rw [hstep]
      simp [applyOp, stepResult, registerUser]

/-- Witness for C8: address 1 registers once as a patient, then a second
attempt with different data reverts and changes nothing. -/
theorem C8_registration_unique_witness :
    registerUser initialState 1 "Alice" "PATIENT" =
      .ok (applyOp initialState (Op.register 1 "Alice" "PATIENT")) ∧
    (applyOp initialState (Op.register 1 "Alice" "PATIENT")).users 1 =
      ⟨"Alice", "PATIENT", true⟩ ∧
    registerUser (applyOp initialState (Op.register 1 "Alice" "PATIENT")) 1
      "Mallory" "DOCTOR" = .error "User already registered" ∧
    applyOp (applyOp initialState (Op.register 1 "Alice" "PATIENT"))
        (Op.register 1 "Mallory" "DOCTOR") =
      applyOp initialState (Op.register 1 "Alice" "PATIENT") :=
  ⟨(C8_registration_unique initialState 1 "Alice" "PATIENT" (by decide) (by decide)).1,
   (C8_registration_unique initialState 1 "Alice" "PATIENT" (by decide) (by decide)).2.1,
   ((C8_registration_unique initialState 1 "Alice" "PATIENT" (by decide)
      (by decide)).2.2 "Mallory" "DOCTOR").1,
   ((C8_registration_unique initialState 1 "Alice" "PATIENT" (by decide)
      (by decide)).2.2 "Mallory" "DOCTOR").2⟩

/-- C9: `getRecordAccessLogs(rid)` succeeds exactly when the caller owns a
record with that id (and that record's stored owner is indeed the
caller); every other caller — the uploader and currently authorized
providers included — and every id stored for no patient gets the
NotAuthorized revert, never a not-found error. -/
theorem C9_logs_owner_only (s : EHRState) (hs : Reachable s) (caller : Address)
    (rid : Nat) :
    ((∃ r ∈ s.patientRecords caller, r.recordId = rid) →
      getRecordAccessLogs s caller rid = .ok (s.recordAccessLogs rid) ∧
      ∀ r ∈ s.patientRecords caller, r.recordId = rid → r.patientAddress = caller) ∧
    (∀ P r, r ∈ s.patientRecords P → r.recordId = rid → caller ≠ P →
      getRecordAccessLogs s caller rid = .error "Not authorized to view access logs") ∧
    ((∀ P r, r ∈ s.patientRecords P → r.recordId ≠ rid) →
      getRecordAccessLogs s caller rid = .error "Not authorized to view access logs") := by
  have hinv := reachable_inv s hs
  have hany : (s.patientRecords caller).any (fun r => r.recordId == rid) = true ↔
      ∃ r ∈ s.patientRecords caller, r.recordId = rid := by
    simp [List.any_eq_true, beq_iff_eq]
  refine ⟨?_, ?_, ?_⟩
  · intro hex
    constructor
    · unfold getRecordAccessLogs
      rw [if_pos (hany.mpr hex)]
    · intro r hr _
      exact hinv.rec_owner caller r hr
  · intro P r hrP hrid hne
    have hno : ¬ (s.patientRecords caller).any (fun r => r.recordId == rid) = true := by
      rw [hany]
      rintro ⟨r', hr', hrid'⟩
      exact hne (hinv.rec_unique caller P r' r hr' hrP (hrid'.trans hrid.symm))
    unfold getRecordAccessLogs
    rw [if_neg hno]
  · intro hall
    have hno : ¬ (s.patientRecords caller).any (fun r => r.recordId == rid) = true := by
      rw [hany]
      rintro ⟨r', hr', hrid'⟩
      exact hall caller r' hr' hrid'
    unfold getRecordAccessLogs
    rw [if_neg hno]

/-- Witness for C9 on the one-record scenario: owner 1 reads record 1's
logs, the uploader 2 is refused, and the unknown id 99 is refused with
the same NotAuthorized revert. -/
theorem C9_logs_owner_only_witness :
    getRecordAccessLogs wAdded 1 1 = .ok (wAdded.recordAccessLogs 1) ∧
    getRecordAccessLogs wAdded 2 1 = .error "Not authorized to view access logs" ∧
    getRecordAccessLogs wAdded 1 99 = .error "Not authorized to view access logs" :=
  ⟨((C9_logs_owner_only wAdded wAdded_reachable 1 1).1 (by decide)).1,
   (C9_logs_owner_only wAdded wAdded_reachable 2 1).2.1 1
     ⟨1, 1, 2, "QmHash123", "PRESCRIPTION", "chk", 0, true⟩
     (by decide) (by decide) (by decide),
   (C9_logs_owner_only wAdded wAdded_reachable 1 99).2.2 (by
     intro P r hr
     by_cases hP : P = 1
     · subst hP
       have hr' : r ∈
           [(⟨1, 1, 2, "QmHash123", "PRESCRIPTION", "chk", 0, true⟩ : MedicalRecord)] := hr
       rw [List.mem_singleton] at hr'
       subst hr'
       decide
     · have he : wAdded.patientRecords P = [] := if_neg hP
       rw [he] at hr
       exact absurd hr (List.not_mem_nil r))⟩

/-- C10: a registered patient's self-access is irrevocable: revoke by the
patient succeeds for every target address, their own included; afterwards
the gate still admits the patient to their own records, so both the write
and the read succeed; and no operation whatsoever removes a registered
patient's self-authorization. -/
theorem C10_self_access_irrevocable (s : EHRState) (P : Address)
    (hP : (s.users P).isRegistered = true) (hrole : (s.users P).role = "PATIENT") :
    ∀ target : Address,
      revokeProviderAccess s P target = .ok (applyOp s (Op.revoke P target)) ∧
      onlyAuthorizedProvider (applyOp s (Op.revoke P target)) P P = true ∧
      (∀ f t d, ∃ s',
        addMedicalRecord (applyOp s (Op.revoke P target)) P P f t d = .ok s') ∧
      getPatientRecords (applyOp s (Op.revoke P target)) P P =
        .ok ((applyOp s (Op.revoke P target)).patientRecords P) ∧
      (∀ op : Op, ((applyOp s op).users P).isRegistered = true ∧
        onlyAuthorizedProvider (applyOp s op) P P = true) := by
  intro target
  have hstep : applyOp s (Op.revoke P target) =
      { s with authorizedProviders := setEdge s.authorizedProviders P target false } := by
    simp [applyOp, stepResult, revokeProviderAccess, hP, hrole]
  have hgate : onlyAuthorizedProvider (applyOp s (Op.revoke P target)) P P = true := by
    rw [hstep]
    simp [onlyAuthorizedProvider, hP]
  refine ⟨?_, hgate, ?_, ?_, ?_⟩
  · rw [hstep]
    simp [revokeProviderAccess, hP, hrole]
  · intro f t d
    exact (addMedicalRecord_isOk _ P P f t d).mpr hgate
  · unfold getPatientRecords
    rw [if_pos hgate]
  · intro op
    have hu := applyOp_users_registered s op P hP
    constructor
    · rw [hu]
      exact hP
    · simp [onlyAuthorizedProvider, hu, hP]

/-- Witness for C10: patient 1 revokes their own address and can still
write and read their own records. -/
theorem C10_self_access_irrevocable_witness :
    revokeProviderAccess wReg 1 1 = .ok (applyOp wReg (Op.revoke 1 1)) ∧
    onlyAuthorizedProvider (applyOp wReg (Op.revoke 1 1)) 1 1 = true ∧
    (∃ s', addMedicalRecord (applyOp wReg (Op.revoke 1 1)) 1 1
      "h" "PRESCRIPTION" "d" = .ok s') ∧
    getPatientRecords (applyOp wReg (Op.revoke 1 1)) 1 1 =
      .ok ((applyOp wReg (Op.revoke 1 1)).patientRecords 1) :=
  ⟨(C10_self_access_irrevocable wReg 1 (by decide) (by decide) 1).1,
   (C10_self_access_irrevocable wReg 1 (by decide) (by decide) 1).2.1,
   (C10_self_access_irrevocable wReg 1 (by decide) (by decide) 1).2.2.1
     "h" "PRESCRIPTION" "d",
   (C10_self_access_irrevocable wReg 1 (by decide) (by decide) 1).2.2.2.1⟩

end EHR
